import Mathlib

/-!
# Swap-route descriptor codec of summitx-example — shallow embedding

Embeds the route-descriptor codec of the repository:

* `parseRouteString` / `convertQuoteToTrade` / `validateConversion` —
  the V1 converter (`quote-to-trade-converter.ts`);
* `QuoteToTradeConverterV2.parseRouteString` / `buildPoolsAndPath` /
  `createPool` / `validateConversion` — the V2 converter
  (`src/utils/quote-to-trade-converter-v2.ts`);
* `formatQuoteResult` and its route renderer `routeEntryString` — the
  descriptor encoder of the token quoter (`token-quoter.ts`, and the
  `routeEntryString008` variant of the second quoter file).

Modelling conventions:

* JS strings are `List Char` (`JStr`); JS `bigint` quantities are `Nat`
  (every quantity handled by the codec is nonnegative, and JS `BigInt`
  division truncates, which on nonnegative values is `Nat` division);
* JS `number` values carrying fee percentages are exact rationals `ℚ`.
  `NaN` and `undefined` are both modelled as `none` (the code only ever
  consumes these values through truthiness tests and `||` defaults, which
  treat `NaN`, `undefined`, `0` and `""` alike);
* thrown JS exceptions are `Except String`;
* the regexes of the source (`/\((\d+)%/`, `/\[(.*?)\]/`,
  `/0x[a-fA-F0-9]{40}/`, `/(\d+\.?\d*)%/`) are modelled by direct scanning
  functions with the same first-match semantics.
-/

abbrev JStr := List Char

def jstr (s : String) : JStr := s.data

def isDig (c : Char) : Bool := decide ('0' ≤ c) && decide (c ≤ '9')

def digitChar (n : Nat) : Char := Char.ofNat (48 + n)

/-- Digit accumulator with structural fuel (`n + 1` steps always
suffice, as the value shrinks by a factor of ten per step). -/
def natToCharsAux : Nat → Nat → JStr → JStr
  | 0, _, acc => acc
  | fuel + 1, n, acc =>
    if n < 10 then digitChar n :: acc
    else natToCharsAux fuel (n / 10) (digitChar (n % 10) :: acc)

/-- Decimal digits of a natural number, as rendered by JS template strings. -/
def natToChars (n : Nat) : JStr := natToCharsAux (n + 1) n []

/-- Decimal digit-string to number, as `parseInt` computes it on an
all-digit input (the only inputs it receives here: the capture group of
the percent regex). -/
def charsToNat (l : JStr) : Nat := l.foldl (fun a c => a * 10 + (c.toNat - 48)) 0

/-- ASCII lower-casing, modelling `String.prototype.toLowerCase` on the
ASCII symbol/address fragments the converter feeds it. -/
def toLowerChar (c : Char) : Char :=
  if decide ('A' ≤ c) && decide (c ≤ 'Z') then Char.ofNat (c.toNat + 32) else c

def toLowerStr (s : JStr) : JStr := s.map toLowerChar

/-!
Kernel-computable rational arithmetic.  Mathlib's `Rat.mul`/`Rat.add` are
`@[irreducible]`, so the JS `number` arithmetic of the codec is modelled
with explicit `mkRat` normalisation, which the kernel evaluates.  `qdiv`
of a zero divisor is the degenerate `0` (it occurs only on a display-only
path fed by a zero quotient).
-/

def qmul (a b : ℚ) : ℚ := mkRat (a.num * b.num) (a.den * b.den)

def qadd (a b : ℚ) : ℚ := mkRat (a.num * b.den + b.num * a.den) (a.den * b.den)

def qdiv (a b : ℚ) : ℚ :=
  mkRat (a.num * b.den * (if b.num < 0 then -1 else 1)) (a.den * b.num.natAbs)

def qfloor (q : ℚ) : Int := Int.fdiv q.num q.den

/-- `Math.round` (round half toward positive infinity). -/
def qround (q : ℚ) : Int := qfloor (qadd q (mkRat 1 2))

/-- Worker for `splitOnSep`; scans left to right, breaking at each
occurrence of the (non-empty) separator, like `String.prototype.split`
with a string separator.  Structural fuel: every step consumes at least
one character, so fuel equal to the string length always suffices. -/
def splitGo : Nat → JStr → JStr → JStr → List JStr
  | _, _, [], acc => [acc.reverse]
  | 0, _, s, acc => [acc.reverse ++ s]
  | fuel + 1, sep, c :: rest, acc =>
    if sep ≠ [] ∧ sep.isPrefixOf (c :: rest) then
      acc.reverse :: splitGo fuel sep ((c :: rest).drop sep.length) []
    else
      splitGo fuel sep rest (c :: acc)

/-- Model of `s.split(sep)` for a non-empty string separator. -/
def splitOnSep (sep s : JStr) : List JStr := splitGo s.length sep s []

/-- Model of `s.includes(needle)`. -/
def containsSeq (hay needle : JStr) : Bool :=
  match hay with
  | [] => needle.isEmpty
  | c :: rest => needle.isPrefixOf (c :: rest) || containsSeq rest needle

/-- Model of `s.replace(pat, "")` (first occurrence only) for a non-empty
string pattern. -/
def removeFirst (pat : JStr) : JStr → JStr
  | [] => []
  | c :: rest =>
    if pat ≠ [] ∧ pat.isPrefixOf (c :: rest) then (c :: rest).drop pat.length
    else c :: removeFirst pat rest

/-- Decidable equality for thrown-or-returned results, so concrete
decoder runs can be checked by evaluation. -/
instance {ε α : Type} [DecidableEq ε] [DecidableEq α] : DecidableEq (Except ε α) := fun x y =>
  match x, y with
  | .ok a, .ok b =>
    if h : a = b then .isTrue (by rw [h]) else .isFalse (by intro hh; cases hh; exact h rfl)
  | .error e, .error f =>
    if h : e = f then .isTrue (by rw [h]) else .isFalse (by intro hh; cases hh; exact h rfl)
  | .ok _, .error _ => .isFalse (by intro hh; cases hh)
  | .error _, .ok _ => .isFalse (by intro hh; cases hh)

/-- Truthiness of an optional string (`undefined` and `""` are falsy). -/
def truthyS : Option JStr → Bool
  | some l => !l.isEmpty
  | none => false

/-- Model of JS `parseFloat` on the decimal fragments the converter feeds
it (an optional integer part, an optional `.` with a fractional part;
parsing stops at the first other character; at least one digit is
required).  `NaN` is `none`.  Signs and exponents never occur in the
descriptor grammar and are not modelled. -/
def parseFloatQ (s : JStr) : Option ℚ :=
  let ip := s.takeWhile isDig
  let rest := s.dropWhile isDig
  match rest with
  | '.' :: rest2 =>
    let fp := rest2.takeWhile isDig
    if ip.isEmpty && fp.isEmpty then none
    else some (qadd ((charsToNat ip : ℚ)) (qdiv ((charsToNat fp : ℚ)) (((10 ^ fp.length : Nat) : ℚ))))
  | _ => if ip.isEmpty then none else some ((charsToNat ip : ℚ))

/-- Model of viem `parseUnits` on nonnegative inputs: validates the shape
`digits[.digits]`, scales by `10^decimals`, and rounds half-up when the
fractional part is longer than `decimals` (viem's `Math.round` carry
path).  Invalid input throws in viem; here it is `none`. -/
def parseUnitsM (s : JStr) (d : Nat) : Option Nat :=
  match splitOnSep (jstr ".") s with
  | [ip] => if ip.all isDig then some (charsToNat ip * 10 ^ d) else none
  | [ip, fp] =>
    if ip.all isDig && fp.all isDig then
      if fp.length ≤ d then
        some (charsToNat ip * 10 ^ d + charsToNat fp * 10 ^ (d - fp.length))
      else
        let m := 10 ^ (fp.length - d)
        let v := charsToNat fp
        some (charsToNat ip * 10 ^ d + v / m + (if m ≤ v % m * 2 then 1 else 0))
    else none
  | _ => none

def parseUnitsE (s : JStr) (d : Nat) : Except String Nat :=
  match parseUnitsM s d with
  | some n => .ok n
  | none => .error "InvalidDecimalNumberError"

def stripTrailingZeros (l : JStr) : JStr := (l.reverse.dropWhile (· == '0')).reverse

def padIntLeft (l : JStr) (d : Nat) : JStr := List.replicate (d - l.length) '0' ++ l

/-- Model of viem `formatUnits`: decimal rendering of `q` scaled down by
`10^d`, with trailing fractional zeros stripped and a bare integer when
the fraction vanishes. -/
def formatUnits (q d : Nat) : JStr :=
  natToChars (q / 10 ^ d) ++
    (if (stripTrailingZeros (padIntLeft (natToChars (q % 10 ^ d)) d)).isEmpty then []
     else '.' :: stripTrailingZeros (padIntLeft (natToChars (q % 10 ^ d)) d))

/-- Fractional decimal digits of `rem / den` by long division (40-digit
fuel; every value reached in this development terminates long before). -/
def fracDigitsAux : Nat → Nat → Nat → JStr
  | 0, _, _ => []
  | _ + 1, 0, _ => []
  | fuel + 1, rem, den => digitChar (rem * 10 / den) :: fracDigitsAux fuel (rem * 10 % den) den

/-- Model of the default JS number-to-string conversion for the
nonnegative finite-decimal rationals the encoder produces (`fee/10000`
for fee-tier numbers): the exact decimal expansion without trailing
zeros, which is what JS prints for these values. -/
def qToJStr (q : ℚ) : JStr :=
  let n := q.num.toNat
  let den := q.den
  natToChars (n / den) ++ (if n % den = 0 then [] else '.' :: fracDigitsAux 40 (n % den) den)

/-- Model of `Fraction.toFixed(2)` (round half up) on nonnegative values. -/
def toFixed2 (q : ℚ) : JStr :=
  natToChars ((qround (qmul q 100)).toNat / 100) ++ '.' ::
    padIntLeft (natToChars ((qround (qmul q 100)).toNat % 100)) 2

/-- Model of the regex `/\((\d+)%/`: first-match scan for `(` followed by
a non-empty greedy digit run followed by `%`; the parsed capture group.
(Backtracking inside `\d+` never succeeds: after fewer digits the next
character is still a digit, not `%`.) -/
def matchPercentFrom : JStr → Option Nat
  | [] => none
  | c :: rest =>
    if c = '(' then
      match rest.dropWhile isDig with
      | '%' :: _ =>
        if (rest.takeWhile isDig).isEmpty then matchPercentFrom rest
        else some (charsToNat (rest.takeWhile isDig))
      | _ => matchPercentFrom rest
    else matchPercentFrom rest

/-- Lazy scan for the closing `]` of `/\[(.*?)\]/`: the characters up to
the first `]`, failing if a newline (which `.` does not match) or the end
of input comes first. -/
def scanToClose : JStr → Option JStr
  | [] => none
  | c :: rest =>
    if c = ']' then some []
    else if c = '\n' then none
    else (scanToClose rest).map (c :: ·)

/-- Model of the regex `/\[(.*?)\]/`: first `[` with a reachable `]`; the
capture group between them. -/
def matchBracketFrom : JStr → Option JStr
  | [] => none
  | c :: rest =>
    if c = '[' then
      match scanToClose rest with
      | some content => some content
      | none => matchBracketFrom rest
    else matchBracketFrom rest

def isHexDig (c : Char) : Bool :=
  isDig c || (decide ('a' ≤ c) && decide (c ≤ 'f')) || (decide ('A' ≤ c) && decide (c ≤ 'F'))

/-- Model of the regex `/0x[a-fA-F0-9]{40}/`: first occurrence of `0x`
followed by 40 hex digits; the matched text. -/
def matchAddrFrom : JStr → Option JStr
  | '0' :: 'x' :: rest =>
    if (rest.take 40).length = 40 && (rest.take 40).all isHexDig then
      some ('0' :: 'x' :: rest.take 40)
    else matchAddrFrom ('x' :: rest)
  | _ :: rest => matchAddrFrom rest
  | [] => none

/-- Model of the regex `/(\d+\.?\d*)%/`: at each position, a non-empty
greedy digit run, an optional `.` with a further greedy digit run, then
`%`; the capture group parsed by `parseFloat` is returned as an exact
rational.  (Backtracking into the digit runs never succeeds, since the
character after a shortened run is a digit, which is neither `.` nor
`%`.) -/
def matchFeeFrom : JStr → Option ℚ
  | [] => none
  | c :: rest =>
    if isDig c then
      let ds := (c :: rest).takeWhile isDig
      match (c :: rest).dropWhile isDig with
      | '%' :: _ => some ((charsToNat ds : ℚ))
      | '.' :: rest2 =>
        let fs := rest2.takeWhile isDig
        match rest2.dropWhile isDig with
        | '%' :: _ =>
          some (qadd ((charsToNat ds : ℚ)) (qdiv ((charsToNat fs : ℚ)) (((10 ^ fs.length : Nat) : ℚ))))
        | _ => matchFeeFrom rest
      | _ => matchFeeFrom rest
    else matchFeeFrom rest

/-!
## Data model

Types from `quote-to-trade-converter.ts` (the V1 converter) and the SDK
boundary.  `Currency` is the `@summitx/swap-sdk-core` currency consumed at
the boundary (`isToken` is the complement of `isNative` in the SDK).
-/

inductive PoolType where
  | V2
  | V3
  | STABLE
deriving DecidableEq, Repr

inductive TradeType where
  | EXACT_INPUT
  | EXACT_OUTPUT
deriving DecidableEq, Repr

structure Currency where
  isNative : Bool
  chainId : Nat
  decimals : Nat
  symbol : Option JStr
  name : Option JStr
  address : Option JStr
deriving DecidableEq, Repr

def Currency.isToken (c : Currency) : Bool := !c.isNative

/-- SDK `Currency.equals`: identity by chain id and address-or-native. -/
def Currency.equalsC (a b : Currency) : Bool :=
  if a.isNative then b.isNative && a.chainId == b.chainId
  else !b.isNative && a.chainId == b.chainId && a.address == b.address

structure TokenV1 where
  chainId : Option Nat
  address : JStr
  decimals : Nat
  symbol : Option JStr
  name : Option JStr
deriving DecidableEq, Repr

structure SwapCurrency where
  isNative : Bool
  isToken : Bool
  chainId : Option Nat
  decimals : Nat
  symbol : Option JStr
  name : Option JStr
  address : Option JStr
deriving DecidableEq, Repr

/-- `SwapCurrencyAmount`.  `decimalScale` is `BigInt(10 ** decimals)`;
the JS float artifact for `decimals ≥ 23` is not modelled (no claim and
no code path here reads `decimalScale`). -/
structure SwapCurrencyAmount where
  currency : SwapCurrency
  quotient : Nat
  decimalScale : Nat
deriving DecidableEq, Repr

/-- `Pool` of the V1 converter.  The `containsToken` closure field is
omitted: it is the address-comparison function determined entirely by
`token0`/`token1`, and nothing in the codec reads it back. -/
structure PoolV1 where
  type : PoolType
  token0 : TokenV1
  token1 : TokenV1
  reserve0 : Option SwapCurrencyAmount
  reserve1 : Option SwapCurrencyAmount
  fee : ℚ
  liquidity : Option Nat
  sqrtRatioX96 : Option Nat
  tick : Option Int
  address : JStr
  tickSpacing : Option Nat
  amplifier : Option Nat
deriving DecidableEq, Repr

structure RouteV1 where
  pools : List PoolV1
  tokenPath : List TokenV1
  input : SwapCurrency
  output : SwapCurrency
deriving DecidableEq, Repr

structure RouteWithQuote where
  route : RouteV1
  inputAmount : SwapCurrencyAmount
  outputAmount : SwapCurrencyAmount
  quote : Nat
  percent : Nat
  gasEstimate : Option Nat
deriving DecidableEq, Repr

structure SwapFraction where
  numerator : Nat
  denominator : Nat
deriving DecidableEq, Repr

structure SwapPrice where
  baseCurrency : SwapCurrency
  quoteCurrency : SwapCurrency
  fraction : SwapFraction
deriving DecidableEq, Repr

structure TradeV1 where
  tradeType : TradeType
  inputAmount : SwapCurrencyAmount
  outputAmount : SwapCurrencyAmount
  routes : List RouteWithQuote
  gasEstimate : Option Nat
  priceImpact : Option ℚ
  executionPrice : SwapPrice
deriving DecidableEq, Repr

/-- Amount type of the smart-router trade (`CurrencyAmount`): currency
plus raw quotient. -/
structure SRAmount where
  currency : Currency
  quotient : Nat
deriving DecidableEq, Repr

/-- Pools of the smart-router trade (`V2Pool | V3Pool | StablePool`).
The `ticks: []` constant of the V2 converter's placeholder V3 pool is
omitted (always the empty array, never read). -/
inductive SRPool where
  | v2 (reserve0 reserve1 : SRAmount) (address : JStr)
  | v3 (token0 token1 : Currency) (fee : ℚ) (liquidity : Nat) (sqrtRatioX96 : Nat)
      (tick : Int) (address : JStr) (token0ProtocolFee token1ProtocolFee : ℚ)
  | stable (balances : List SRAmount) (amplifier : Nat) (fee : ℚ) (address : JStr)
deriving DecidableEq, Repr

def SRPool.address : SRPool → JStr
  | .v2 _ _ a => a
  | .v3 _ _ _ _ _ _ a _ _ => a
  | .stable _ _ _ a => a

/-- Numeric value of the smart-router `PoolType` enum (`V2 = 0`, `V3 = 1`,
`STABLE = 2`), as compared against by the encoder (`pool.type === 0`). -/
def SRPool.typeNum : SRPool → Nat
  | .v2 _ _ _ => 0
  | .v3 _ _ _ _ _ _ _ _ _ => 1
  | .stable _ _ _ _ => 2

/-- A `BaseRoute` of the smart-router trade. -/
structure SRRoute where
  pools : List SRPool
  path : List Currency
  input : Currency
  output : Currency
  percent : Nat
  inputAmount : SRAmount
  outputAmount : SRAmount
deriving DecidableEq, Repr

structure SRTrade where
  tradeType : TradeType
  inputAmount : SRAmount
  outputAmount : SRAmount
  routes : List SRRoute
  gasEstimate : Option Nat
deriving DecidableEq, Repr

/-- `QuoteResult` of the token quoter.  The display-only fields
(`outputAmountWithSlippage`, `executionPrice`, `minimumReceived`,
`routerTime`) are never read by the converters or validators and are
omitted.  `gasEstimate` is kept as the numeric value of its decimal
string. -/
structure QuoteResult where
  inputToken : Currency
  outputToken : Currency
  inputAmount : JStr
  outputAmount : JStr
  priceImpact : JStr
  route : List JStr
  pools : List JStr
  gasEstimate : Option Nat
  rawTrade : Option SRTrade
deriving DecidableEq, Repr

/-!
## V1 converter (`quote-to-trade-converter.ts`)
-/

structure ParsedHop where
  tokenIn : JStr
  tokenOut : Option JStr
  poolType : Option JStr
  fee : Option ℚ
  address : Option JStr
deriving DecidableEq, Repr

structure ParsedRoute where
  percent : Nat
  hops : List ParsedHop
deriving DecidableEq, Repr

/-- One hop fragment of `parseRouteString`: split on spaces, token pair on
`-`, optional fee (`parseFloat(...%...) * 10000`, only for `V3` with a
truthy third part), optional address at index 3 (V3) or 2 (rest). -/
def parseHopFragment (hop : JStr) : ParsedHop :=
  let parts := splitOnSep (jstr " ") hop
  let pair := splitOnSep (jstr "-") (parts.getD 0 [])
  let tokenIn := pair.getD 0 []
  let tokenOut := pair.get? 1
  let poolType := parts.get? 1
  let fee :=
    if poolType == some (jstr "V3") && truthyS (parts.get? 2) then
      (parseFloatQ (removeFirst (jstr "%") (parts.getD 2 []))).map (fun q => qmul q 10000)
    else none
  let ai := if poolType == some (jstr "V3") then 3 else 2
  let address := if truthyS (parts.get? ai) then parts.get? ai else none
  ⟨tokenIn, tokenOut, poolType, fee, address⟩

/-- `parseRouteString` of the V1 converter: percent from `/\((\d+)%/`
defaulting to 100, hop list from `/\[(.*?)\]/` split on `", "`; throws
when there is no bracketed hop list. -/
def parseRouteString (routeStr : JStr) : Except String ParsedRoute :=
  let percent := (matchPercentFrom routeStr).getD 100
  match matchBracketFrom routeStr with
  | none => .error "Invalid route format"
  | some hopsString =>
    .ok ⟨percent, (splitOnSep (jstr ", ") hopsString).map parseHopFragment⟩

def convertCurrencyToSwapCurrency (c : Currency) : SwapCurrency :=
  { isNative := c.isNative
    isToken := c.isToken
    chainId := some c.chainId
    decimals := c.decimals
    symbol := some (c.symbol.getD [])
    name := c.name
    address := if c.isToken then c.address else none }

/-- `convertCurrencyToToken`; throws on a native currency.  (An SDK token
always carries an address; `getD []` covers the unreachable case.) -/
def convertCurrencyToToken (c : Currency) : Except String TokenV1 :=
  if c.isToken then
    .ok { chainId := some c.chainId
          address := c.address.getD []
          decimals := c.decimals
          symbol := some (c.symbol.getD [])
          name := some (c.name.getD []) }
  else .error "Cannot convert native currency to token"

def createCurrencyAmountStr (currency : SwapCurrency) (amount : JStr) :
    Except String SwapCurrencyAmount := do
  let q ← parseUnitsE amount currency.decimals
  .ok ⟨currency, q, 10 ^ currency.decimals⟩

def createCurrencyAmountBig (currency : SwapCurrency) (amount : Nat) : SwapCurrencyAmount :=
  ⟨currency, amount, 10 ^ currency.decimals⟩

/-- The spread `{ ...token, isNative: false, isToken: true }` used for the
default V2 reserves. -/
def tokenToSwapCurrency (t : TokenV1) : SwapCurrency :=
  { isNative := false, isToken := true, chainId := t.chainId, decimals := t.decimals
    symbol := t.symbol, name := t.name, address := some t.address }

/-- `createPool` of the V1 converter, with its kind-specific defaults. -/
def createPool (token0 token1 : TokenV1) (poolType : PoolType) (fee : ℚ) (address : JStr) :
    PoolV1 :=
  let base : PoolV1 :=
    { type := poolType, token0 := token0, token1 := token1
      reserve0 := none, reserve1 := none, fee := fee
      liquidity := none, sqrtRatioX96 := none, tick := none
      address := address, tickSpacing := none, amplifier := none }
  match poolType with
  | .V3 =>
    { base with
      tickSpacing := some (if fee = 100 then 1 else if fee = 500 then 10
        else if fee = 3000 then 60 else 200)
      sqrtRatioX96 := some 79228162514264337593543950336
      tick := some 0
      liquidity := some 1000000000000000000 }
  | .V2 =>
    { base with
      reserve0 := some (createCurrencyAmountBig (tokenToSwapCurrency token0) 1000000000000000000)
      reserve1 := some (createCurrencyAmountBig (tokenToSwapCurrency token1) 1000000000000000000) }
  | .STABLE => { base with amplifier := some 100 }

/-- Pool-kind tag of a parsed hop: `"V3" → V3`, `"V2" → V2`, anything
else (including a missing tag) `→ STABLE` — the inline conditional of
`convertQuoteToTrade`. -/
def hopPoolType (pt : Option JStr) : PoolType :=
  if pt == some (jstr "V3") then .V3 else if pt == some (jstr "V2") then .V2 else .STABLE

/-- `hop.fee || 3000` (`0`, `NaN` and `undefined` all fall back). -/
def hopFee (h : ParsedHop) : ℚ :=
  match h.fee with
  | some f => if f = 0 then 3000 else f
  | none => 3000

def zeroAddress : JStr := jstr "0x0000000000000000000000000000000000000000"

/-- `hop.address || "0x0000000000000000000000000000000000000000"`. -/
def hopAddress (h : ParsedHop) : JStr :=
  match h.address with
  | some a => if a.isEmpty then zeroAddress else a
  | none => zeroAddress

/-- The fabricated intermediate token of the V1 converter's multi-hop
path: address `` `0x${hop.tokenOut.toLowerCase()}` ``, 18 decimals, and a
chain id of `none` — the source references `ChainId.MANTLE_SEPOLIA_TESTNET`,
which is not a member of its own `ChainId` enum, hence `undefined`
(a plain property access, no throw).  When the hop fragment had no `-`,
`hop.tokenOut` is `undefined` and the `toLowerCase()` call throws a
`TypeError`. -/
def placeholderToken (h : ParsedHop) : Except String TokenV1 :=
  match h.tokenOut with
  | none => .error "TypeError: Cannot read properties of undefined (reading toLowerCase)"
  | some s =>
    .ok { chainId := none
          address := jstr "0x" ++ toLowerStr s
          decimals := 18
          symbol := some s
          name := some s }

/-- The `hops.forEach` loop of `convertQuoteToTrade`: walks the parsed
hops threading the current token, using the trade's output token for the
last hop and a fabricated placeholder token for intermediate hops (whose
construction throws when the fragment named no output token).  Returns
the token path after the start token, and the pools. -/
def buildHopsAux (outputCurrency : Currency) (current : TokenV1) :
    List ParsedHop → Except String (List TokenV1 × List PoolV1)
  | [] => .ok ([], [])
  | [h] => do
    let outTok ← convertCurrencyToToken outputCurrency
    .ok ([outTok], [createPool current outTok (hopPoolType h.poolType) (hopFee h) (hopAddress h)])
  | h :: h2 :: rest => do
    let outTok ← placeholderToken h
    let (ts, ps) ← buildHopsAux outputCurrency outTok (h2 :: rest)
    .ok (outTok :: ts,
      createPool current outTok (hopPoolType h.poolType) (hopFee h) (hopAddress h) :: ps)

/-- The per-route body of `convertQuoteToTrade`'s `parsedRoutes.map`. -/
def buildRoute (q : QuoteResult) (inputCurrency outputCurrency : SwapCurrency)
    (inputAmount outputAmount : SwapCurrencyAmount) (pr : ParsedRoute) :
    Except String RouteWithQuote := do
  let startToken ← convertCurrencyToToken q.inputToken
  let (ts, pools) ← buildHopsAux q.outputToken startToken pr.hops
  let routeInputAmount := createCurrencyAmountBig inputCurrency
    (inputAmount.quotient * pr.percent / 100)
  let routeOutputAmount := createCurrencyAmountBig outputCurrency
    (outputAmount.quotient * pr.percent / 100)
  .ok { route := { pools := pools, tokenPath := startToken :: ts
                   input := inputCurrency, output := outputCurrency }
        inputAmount := routeInputAmount
        outputAmount := routeOutputAmount
        quote := routeOutputAmount.quotient
        percent := pr.percent
        gasEstimate := q.gasEstimate }

/-- A JS `Array.prototype.map` whose callback can throw: evaluates left
to right, propagating the first exception. -/
def mapExcept (f : α → Except String β) : List α → Except String (List β)
  | [] => .ok []
  | x :: xs => do
    let y ← f x
    let ys ← mapExcept f xs
    .ok (y :: ys)

/-- `QuoteToTradeConverter.convertQuoteToTrade`.  `quote.route` is
`string[]` (the `Array.isArray` branch). -/
def convertQuoteToTrade (q : QuoteResult) : Except String TradeV1 := do
  let parsedRoutes ← mapExcept parseRouteString q.route
  let inputCurrency := convertCurrencyToSwapCurrency q.inputToken
  let outputCurrency := convertCurrencyToSwapCurrency q.outputToken
  let inputAmount ← createCurrencyAmountStr inputCurrency q.inputAmount
  let outputAmount ← createCurrencyAmountStr outputCurrency q.outputAmount
  let routes ← mapExcept (buildRoute q inputCurrency outputCurrency inputAmount outputAmount)
    parsedRoutes
  .ok { tradeType := .EXACT_INPUT
        inputAmount := inputAmount
        outputAmount := outputAmount
        routes := routes
        gasEstimate := q.gasEstimate
        priceImpact := parseFloatQ (removeFirst (jstr "%") q.priceImpact)
        executionPrice := { baseCurrency := inputCurrency, quoteCurrency := outputCurrency
                            fraction := ⟨outputAmount.quotient, inputAmount.quotient⟩ } }

/-- `QuoteToTradeConverter.validateConversion`: amounts re-parsed with
viem `parseUnits` (whose throw propagates), route count, and the percent
sum (`reduce`).  There is no currency-identity check in this validator. -/
def validateConversion (q : QuoteResult) (t : TradeV1) : Except String Bool := do
  let pin ← parseUnitsE q.inputAmount q.inputToken.decimals
  let pout ← parseUnitsE q.outputAmount q.outputToken.decimals
  let inputMatches := t.inputAmount.quotient == pin
  let outputMatches := t.outputAmount.quotient == pout
  let routeCount := q.route.length
  let tradeRouteCount := t.routes.length
  let totalPercent := t.routes.foldl (fun s r => s + r.percent) 0
  .ok (inputMatches && outputMatches && routeCount == tradeRouteCount && totalPercent == 100)

/-!
## V2 converter (`quote-to-trade-converter-v2.ts`)
-/

namespace QuoteToTradeConverterV2

structure ParsedHopV2 where
  tokenIn : JStr
  tokenOut : Option JStr
  poolType : JStr
  fee : Option ℚ
  address : Option JStr
deriving DecidableEq, Repr

structure ParsedRouteV2 where
  percent : Nat
  hops : List ParsedHopV2
deriving DecidableEq, Repr

/-- Hop fragment of the V2 `parseRouteString`: identical to V1 except the
pool tag defaults to `"V2"` when missing or empty (`parts[1] || "V2"`). -/
def parseHopFragment (hop : JStr) : ParsedHopV2 :=
  let parts := splitOnSep (jstr " ") hop
  let pair := splitOnSep (jstr "-") (parts.getD 0 [])
  let tokenIn := pair.getD 0 []
  let tokenOut := pair.get? 1
  let poolType :=
    match parts.get? 1 with
    | some l => if l.isEmpty then jstr "V2" else l
    | none => jstr "V2"
  let fee :=
    if poolType == jstr "V3" && truthyS (parts.get? 2) then
      (parseFloatQ (removeFirst (jstr "%") (parts.getD 2 []))).map (fun q => qmul q 10000)
    else none
  let ai := if poolType == jstr "V3" then 3 else 2
  let address := if truthyS (parts.get? ai) then parts.get? ai else none
  ⟨tokenIn, tokenOut, poolType, fee, address⟩

/-- `QuoteToTradeConverterV2.parseRouteString`: total; a missing bracket
list is the "simple format" and yields `percent = 100` (not the parsed
percent) with an empty hop list. -/
def parseRouteString (routeStr : JStr) : ParsedRouteV2 :=
  let percent := (matchPercentFrom routeStr).getD 100
  match matchBracketFrom routeStr with
  | none => ⟨100, []⟩
  | some hopsString =>
    ⟨percent, (splitOnSep (jstr ", ") hopsString).map parseHopFragment⟩

/-- SDK `Currency.wrapped`.  For a token this is the token itself; for a
native currency the SDK returns the chain's WNATIVE token, external data
modelled here as the same record marked non-native (the claims exercise
only token currencies). -/
def wrappedC (c : Currency) : Currency :=
  if c.isNative then { c with isNative := false } else c

/-- Pool-kind classification of the V2 direct-swap path
(`buildPoolsAndPath`): a string containing `"V3"` is Concentrated, else
one containing `"Stable"` is Stable, else ConstantProduct. -/
def classifyPoolInfoString (poolInfoStr : JStr) : PoolType :=
  if containsSeq poolInfoStr (jstr "V3") then .V3
  else if containsSeq poolInfoStr (jstr "Stable") then .STABLE
  else .V2

/-- `QuoteToTradeConverterV2.createPool`: placeholder pools with dummy
data; address from `/0x[a-fA-F0-9]{40}/` with a zero-address fallback;
for V3, fee `Math.round(parseFloat(...) * 10000)` from `/(\d+\.?\d*)%/`
with a 3000 fallback. -/
def createPool (tokenA tokenB : Currency) (poolType : PoolType) (poolInfoStr : JStr) : SRPool :=
  let address := (matchAddrFrom poolInfoStr).getD zeroAddress
  let token0 := wrappedC tokenA
  let token1 := wrappedC tokenB
  match poolType with
  | .V3 =>
    let fee : ℚ :=
      match matchFeeFrom poolInfoStr with
      | some q => mkRat (qround (qmul q 10000)) 1
      | none => 3000
    .v3 token0 token1 fee 1000000000000000000 79228162514264337593543950336 0 address 0 0
  | .STABLE =>
    .stable [⟨token0, 1000000000000000000⟩, ⟨token1, 1000000000000000000⟩] 100 (mkRat 4 10000) address
  | .V2 =>
    .v2 ⟨token0, 1000000000000000000⟩ ⟨token1, 1000000000000000000⟩ address

/-- `QuoteToTradeConverterV2.buildPoolsAndPath`: a parsed route with an
empty hop list is a direct swap built from the pool-info string; any
non-empty hop list throws ("Multi-hop swaps cannot be accurately
converted without raw trade data"). -/
def buildPoolsAndPath (routeInfo : ParsedRouteV2) (inputToken outputToken : Currency)
    (poolInfoStr : JStr) : Except String (List SRPool × List Currency) :=
  if routeInfo.hops.length = 0 then
    let poolType := classifyPoolInfoString poolInfoStr
    .ok ([createPool inputToken outputToken poolType poolInfoStr], [inputToken, outputToken])
  else
    .error "Multi-hop swaps cannot be accurately converted without raw trade data. Please ensure rawTrade is included in the quote."

/-- `QuoteToTradeConverterV2.validateConversion`: amounts re-parsed with
viem `parseUnits` (throw propagates), route count, and SDK currency
identity for input and output.  There is no percent-sum check in this
validator. -/
def validateConversion (q : QuoteResult) (t : SRTrade) : Except String Bool := do
  let pin ← parseUnitsE q.inputAmount q.inputToken.decimals
  let pout ← parseUnitsE q.outputAmount q.outputToken.decimals
  let inputMatches := t.inputAmount.quotient == pin
  let outputMatches := t.outputAmount.quotient == pout
  let quoteRouteCount := q.route.length
  let tradeRouteCount := t.routes.length
  let inputCurrencyMatches := Currency.equalsC t.inputAmount.currency q.inputToken
  let outputCurrencyMatches := Currency.equalsC t.outputAmount.currency q.outputToken
  .ok (inputMatches && outputMatches && quoteRouteCount == tradeRouteCount
    && inputCurrencyMatches && outputCurrencyMatches)

end QuoteToTradeConverterV2

/-!
## Descriptor encoder (`formatQuoteResult` of the token quoter)
-/

/-- Template rendering of a possibly-undefined symbol:
`` `${currency.symbol}` `` prints `undefined` for a missing symbol. -/
def symbolTemplate (c : Currency) : JStr := c.symbol.getD (jstr "undefined")

/-- `currentToken.symbol || "Unknown"`. -/
def symbolOrUnknown (c : Currency) : JStr :=
  match c.symbol with
  | some s => if s.isEmpty then jstr "Unknown" else s
  | none => jstr "Unknown"

/-- The fee fragment `` `${fee/10000}%` `` with `fee || "Unknown"`: a
falsy fee renders as `"Unknown"/10000 = NaN`. -/
def feeFragment (fee : ℚ) : JStr :=
  (if fee = 0 then jstr "NaN" else qToJStr (qdiv fee 10000)) ++ ['%']

/-- Pool info of one hop as the `token-quoter.ts` encoder renders it:
`pool.type === 0` is `"V2"`, `=== 1` is `"V3 <fee>%"`, anything else
(stable) keeps the initial `"Unknown"`; a truthy address is appended in
full. -/
def poolInfoString : Option SRPool → JStr
  | none => jstr "Unknown"
  | some pool =>
    let base :=
      match pool with
      | .v2 _ _ _ => jstr "V2"
      | .v3 _ _ fee _ _ _ _ _ _ => jstr "V3 " ++ feeFragment fee
      | .stable _ _ _ _ => jstr "Unknown"
    base ++ (if (SRPool.address pool).isEmpty then [] else ' ' :: SRPool.address pool)

/-- One path segment: `<sym>-<sym> <poolInfo>`. -/
def pathSegment (cur nxt : Currency) (pool : Option SRPool) : JStr :=
  symbolOrUnknown cur ++ '-' :: (symbolOrUnknown nxt ++ ' ' :: poolInfoString pool)

/-- Fallback currency for the (unreachable) out-of-range path accesses of
the encoder's index loop. -/
def dummyCurrency : Currency :=
  { isNative := false, chainId := 0, decimals := 0, symbol := none, name := none, address := none }

/-- The `for (let i = 0; i < route.path.length - 1; i++)` loop joined
with `", "`. -/
def pathStringOf (r : SRRoute) : JStr :=
  List.intercalate (jstr ", ")
    ((List.range (r.path.length - 1)).map fun i =>
      pathSegment (r.path.getD i dummyCurrency) (r.path.getD (i + 1) dummyCurrency)
        (r.pools.get? i))

/-- One route entry of the descriptor:
`` `(${route.percent || 0}% [${pathString}])` `` (for a `Nat` percent,
`percent || 0` is the percent itself). -/
def routeEntryString (r : SRRoute) : JStr :=
  '(' :: (natToChars r.percent ++ '%' :: ' ' :: '[' :: (pathStringOf r ++ [']', ')']))

/-- Pool info of one hop as the second quoter file (`part_008`) renders
it: same fee fragment, a `"Stable"` tag for stable pools, and the address
truncated to its first 8 characters plus `"..."`. -/
def poolInfoString008 : Option SRPool → JStr
  | none => jstr "Unknown"
  | some pool =>
    let base :=
      match pool with
      | .v2 _ _ _ => jstr "V2"
      | .v3 _ _ fee _ _ _ _ _ _ => jstr "V3 " ++ feeFragment fee
      | .stable _ _ _ _ => jstr "Stable"
    base ++ (if (SRPool.address pool).isEmpty then []
      else ' ' :: ((SRPool.address pool).take 8 ++ jstr "..."))

def pathSegment008 (cur nxt : Currency) (pool : Option SRPool) : JStr :=
  symbolOrUnknown cur ++ '-' :: (symbolOrUnknown nxt ++ ' ' :: poolInfoString008 pool)

def pathStringOf008 (r : SRRoute) : JStr :=
  List.intercalate (jstr ", ")
    ((List.range (r.path.length - 1)).map fun i =>
      pathSegment008 (r.path.getD i dummyCurrency) (r.path.getD (i + 1) dummyCurrency)
        (r.pools.get? i))

def routeEntryString008 (r : SRRoute) : JStr :=
  '(' :: (natToChars r.percent ++ '%' :: ' ' :: '[' :: (pathStringOf008 r ++ [']', ')']))

/-- One entry of the `pools` summary array of `formatQuoteResult`. -/
def poolSummary : SRPool → JStr
  | .v3 _ _ _ _ _ _ a _ _ => jstr "V3 " ++ a
  | .v2 r0 r1 _ => jstr "V2 " ++ symbolTemplate r0.currency ++ '-' :: symbolTemplate r1.currency
  | .stable _ _ _ a => jstr "Stable " ++ a

/-- `CurrencyAmount.divide`: the fraction
`(quotient * otherScale) / (scale * otherQuotient)` (division by a zero
quotient is a degenerate fraction in the SDK; `ℚ` renders it `0`, and
nothing downstream reads the result apart from display). -/
def amountRatio (a b : SRAmount) : ℚ :=
  mkRat (a.quotient * 10 ^ b.currency.decimals) (10 ^ a.currency.decimals * b.quotient)

/-- `formatQuoteResult` of `token-quoter.ts`, restricted to the fields
the converters and validators consume.  The slippage-derived display
fields and `routerTime` are not modelled. -/
def formatQuoteResult (trade : SRTrade) (inputAmountRaw : JStr) : QuoteResult :=
  { inputToken := trade.inputAmount.currency
    outputToken := trade.outputAmount.currency
    inputAmount := inputAmountRaw
    outputAmount := formatUnits trade.outputAmount.quotient trade.outputAmount.currency.decimals
    priceImpact := toFixed2 (amountRatio trade.inputAmount trade.outputAmount) ++ ['%']
    route := trade.routes.map routeEntryString
    pools := trade.routes.flatMap (fun r => r.pools.map poolSummary)
    gasEstimate := trade.gasEstimate
    rawTrade := some trade }

/-!
## Validator contract as the specification states it

Stated from the spec's §4.4 wording, for comparison with the code's two
validators: all five checks — input quotient, output quotient, the two
currency identities, route count, and the percent sum being exactly 100.
-/

def validateSpecFiveChecks (q : QuoteResult) (t : SRTrade) : Bool :=
  ((parseUnitsM q.inputAmount q.inputToken.decimals).map
    (fun n => t.inputAmount.quotient == n)).getD false
  && ((parseUnitsM q.outputAmount q.outputToken.decimals).map
    (fun n => t.outputAmount.quotient == n)).getD false
  && Currency.equalsC t.inputAmount.currency q.inputToken
  && Currency.equalsC t.outputAmount.currency q.outputToken
  && q.route.length == t.routes.length
  && (t.routes.foldl (fun s r => s + r.percent) 0) == 100

/-!
## Concrete fixtures

Shared tokens, quotes and trades used as concrete inputs by the
counterexamples and witnesses.
-/

def tokA : Currency :=
  { isNative := false, chainId := 5003, decimals := 0, symbol := some (jstr "A")
    name := some (jstr "TokenA")
    address := some (jstr "0xaaaaaaaaaaaaaaaaaaaaaaaaaaaaaaaaaaaaaaaa") }

def tokB : Currency :=
  { isNative := false, chainId := 5003, decimals := 0, symbol := some (jstr "B")
    name := some (jstr "TokenB")
    address := some (jstr "0xbbbbbbbbbbbbbbbbbbbbbbbbbbbbbbbbbbbbbbbb") }

def tokC : Currency :=
  { isNative := false, chainId := 5003, decimals := 0, symbol := some (jstr "C")
    name := some (jstr "TokenC")
    address := some (jstr "0xcccccccccccccccccccccccccccccccccccccccc") }

def usdc : Currency :=
  { isNative := false, chainId := 5003, decimals := 6, symbol := some (jstr "USDC")
    name := some (jstr "USD Coin")
    address := some (jstr "0x1111111111111111111111111111111111111111") }

def weth : Currency :=
  { isNative := false, chainId := 5003, decimals := 18, symbol := some (jstr "WETH")
    name := some (jstr "Wrapped Ether")
    address := some (jstr "0x2222222222222222222222222222222222222222") }

/-- Quote with the given context and route strings (empty `pools`
summary, no gas estimate, no raw trade — the decode-fallback shape). -/
def mkQuote (inT outT : Currency) (inA outA pi : JStr) (gas : Option Nat)
    (routes : List JStr) : QuoteResult :=
  { inputToken := inT, outputToken := outT, inputAmount := inA, outputAmount := outA
    priceImpact := pi, route := routes, pools := [], gasEstimate := gas, rawTrade := none }

def dToken : TokenV1 :=
  { chainId := none, address := [], decimals := 0, symbol := none, name := none }

def dSwapCurrency : SwapCurrency :=
  { isNative := false, isToken := true, chainId := none, decimals := 0
    symbol := none, name := none, address := none }

def dAmount : SwapCurrencyAmount := { currency := dSwapCurrency, quotient := 0, decimalScale := 1 }

def dPool : PoolV1 :=
  { type := .V2, token0 := dToken, token1 := dToken, reserve0 := none, reserve1 := none
    fee := 0, liquidity := none, sqrtRatioX96 := none, tick := none, address := []
    tickSpacing := none, amplifier := none }

def dRouteWQ : RouteWithQuote :=
  { route := { pools := [], tokenPath := [], input := dSwapCurrency, output := dSwapCurrency }
    inputAmount := dAmount, outputAmount := dAmount, quote := 0, percent := 0
    gasEstimate := none }

def dTrade : TradeV1 :=
  { tradeType := .EXACT_INPUT, inputAmount := dAmount, outputAmount := dAmount, routes := []
    gasEstimate := none, priceImpact := none
    executionPrice := { baseCurrency := dSwapCurrency, quoteCurrency := dSwapCurrency
                        fraction := ⟨0, 0⟩ } }

def dHop : ParsedHop := { tokenIn := [], tokenOut := none, poolType := none, fee := none
                          address := none }

/-- Multi-hop descriptor of the spec's fail-closed property. -/
def c1quote : QuoteResult :=
  mkQuote tokA tokC (jstr "10") (jstr "20") (jstr "0.01%") none
    [jstr "(100% [A-B V3 0.3% 0xaaa, B-C V2 0xbbb])"]

/-- Non-divisible 33/33/34 split over a total of 10 base units. -/
def c2quote : QuoteResult :=
  mkQuote tokA tokB (jstr "10") (jstr "10") (jstr "0.01%") none
    [jstr "(33% [A-B V2 0xaa])", jstr "(33% [A-B V2 0xbb])", jstr "(34% [A-B V2 0xcc])"]

def c2trade : TradeV1 := (convertQuoteToTrade c2quote).toOption.getD dTrade

def c2route0 : RouteWithQuote := c2trade.routes.getD 0 dRouteWQ

/-- Descriptor whose single route claims 150%. -/
def c6quote : QuoteResult :=
  mkQuote tokA tokB (jstr "10") (jstr "10") (jstr "0.01%") none [jstr "(150% [A-B V2])"]

def c6trade : TradeV1 := (convertQuoteToTrade c6quote).toOption.getD dTrade

/-- Pool hint carrying neither a V3/fee marker nor a STABLE marker. -/
def c7quote : QuoteResult :=
  mkQuote tokA tokB (jstr "10") (jstr "10") (jstr "0.01%") none [jstr "(100% [A-B FOO 0xcc])"]

/-- The spec's two-route example trade: 60% through a Concentrated pool
at 3000 bps, 40% through a ConstantProduct pool. -/
def addrAs : JStr := jstr "0xAAAAAAAAAAAAAAAAAAAAAAAAAAAAAAAAAAAAAAAA"

def addrBs : JStr := jstr "0xBBBBBBBBBBBBBBBBBBBBBBBBBBBBBBBBBBBBBBBB"

def c8poolV3 : SRPool :=
  .v3 usdc weth 3000 1000000000000000000 79228162514264337593543950336 0 addrAs 0 0

def c8poolV2 : SRPool :=
  .v2 ⟨usdc, 1000000000000000000⟩ ⟨weth, 1000000000000000000⟩ addrBs

def c8routeA : SRRoute :=
  { pools := [c8poolV3], path := [usdc, weth], input := usdc, output := weth, percent := 60
    inputAmount := ⟨usdc, 600000⟩, outputAmount := ⟨weth, 1200000000000000000⟩ }

def c8routeB : SRRoute :=
  { pools := [c8poolV2], path := [usdc, weth], input := usdc, output := weth, percent := 40
    inputAmount := ⟨usdc, 400000⟩, outputAmount := ⟨weth, 800000000000000000⟩ }

def c8trade : SRTrade :=
  { tradeType := .EXACT_INPUT, inputAmount := ⟨usdc, 1000000⟩
    outputAmount := ⟨weth, 2000000000000000000⟩, routes := [c8routeA, c8routeB]
    gasEstimate := none }

/-- Single-route V3 trade used for the fee-tier round trip. -/
def c4route (f : ℚ) : SRRoute :=
  { pools := [.v3 usdc weth f 1000000000000000000 79228162514264337593543950336 0 addrAs 0 0]
    path := [usdc, weth], input := usdc, output := weth, percent := 100
    inputAmount := ⟨usdc, 1000000⟩, outputAmount := ⟨weth, 2000000000000000000⟩ }

/-- Reconstructed trade whose percents sum to 150 yet which passes the V2
validator. -/
def c5route : SRRoute :=
  { pools := [c8poolV2], path := [tokA, tokB], input := tokA, output := tokB, percent := 150
    inputAmount := ⟨tokA, 10⟩, outputAmount := ⟨tokB, 10⟩ }

def c5quote : QuoteResult :=
  mkQuote tokA tokB (jstr "10") (jstr "10") (jstr "0.01%") none [jstr "(150% [A-B V2])"]

def c5trade : SRTrade :=
  { tradeType := .EXACT_INPUT, inputAmount := ⟨tokA, 10⟩, outputAmount := ⟨tokB, 10⟩
    routes := [c5route], gasEstimate := none }

/-- Single-hop trade on which the round trip is witnessed. -/
def c3route : SRRoute :=
  { pools := [c8poolV2], path := [tokA, tokB], input := tokA, output := tokB, percent := 100
    inputAmount := ⟨tokA, 10⟩, outputAmount := ⟨tokB, 20⟩ }

def c3trade : SRTrade :=
  { tradeType := .EXACT_INPUT, inputAmount := ⟨tokA, 10⟩, outputAmount := ⟨tokB, 20⟩
    routes := [c3route], gasEstimate := none }

/-- The spec's multi-hop descriptor as the V2 converter parses it. -/
def c1riV2 : QuoteToTradeConverterV2.ParsedRouteV2 :=
  QuoteToTradeConverterV2.parseRouteString (jstr "(100% [A-B V3 0.3% 0xaaa, B-C V2 0xbbb])")

/-- Quotes that differ only in whether the descriptor spells out the zero
address: used to show the decoder leaves no provenance marker. -/
def c9quoteNoAddr (it ot : Currency) (ia oa pi : JStr) (g : Option Nat) : QuoteResult :=
  mkQuote it ot ia oa pi g [jstr "(100% [A-B V2])"]

def c9quoteZeroAddr (it ot : Currency) (ia oa pi : JStr) (g : Option Nat) : QuoteResult :=
  mkQuote it ot ia oa pi g
    [jstr "(100% [A-B V2 0x0000000000000000000000000000000000000000])"]

/-!
## Basic lemmas
-/

@[simp] theorem except_ok_bind {α β : Type} (a : α) (f : α → Except String β) :
    (Except.ok a >>= f : Except String β) = f a := rfl

@[simp] theorem except_error_bind {α β : Type} (e : String) (f : α → Except String β) :
    (Except.error e >>= f : Except String β) = .error e := rfl

@[simp] theorem except_pure_eq_ok {α : Type} (a : α) :
    (pure a : Except String α) = .ok a := rfl

theorem except_bind_ok_iff {α β : Type} (m : Except String α) (f : α → Except String β) (b : β) :
    (m >>= f) = .ok b ↔ ∃ a, m = .ok a ∧ f a = .ok b := by
  cases m with
  | ok a => simp
  | error e => simp

theorem isDig_digitChar {n : Nat} (h : n < 10) : isDig (digitChar n) = true := by
  interval_cases n <;> decide

theorem toNat_digitChar {n : Nat} (h : n < 10) : (digitChar n).toNat = 48 + n := by
  interval_cases n <;> decide

theorem natToCharsAux_all_dig :
    ∀ (fuel n : Nat) (acc : JStr), (∀ c ∈ acc, isDig c = true) →
      ∀ c ∈ natToCharsAux fuel n acc, isDig c = true := by
  intro fuel
  induction fuel with
  | zero => intro n acc hacc c hc; exact hacc c hc
  | succ fuel ih =>
    intro n acc hacc c hc
    rw [natToCharsAux] at hc
    split at hc
    · rename_i h
      rcases List.mem_cons.mp hc with rfl | hc
      · exact isDig_digitChar h
      · exact hacc c hc
    · exact ih (n / 10) (digitChar (n % 10) :: acc)
        (by
          intro d hd
          rcases List.mem_cons.mp hd with rfl | hd
          · exact isDig_digitChar (Nat.mod_lt n (by omega))
          · exact hacc d hd)
        c hc

theorem natToChars_all_dig (n : Nat) : ∀ c ∈ natToChars n, isDig c = true :=
  natToCharsAux_all_dig (n + 1) n [] (by simp)

theorem natToCharsAux_ne_nil_of_acc :
    ∀ (fuel n : Nat) (acc : JStr), acc ≠ [] → natToCharsAux fuel n acc ≠ [] := by
  intro fuel
  induction fuel with
  | zero => intro n acc hacc; exact hacc
  | succ fuel ih =>
    intro n acc hacc
    rw [natToCharsAux]
    split
    · simp
    · exact ih _ _ (by simp)

theorem natToChars_ne_nil (n : Nat) : natToChars n ≠ [] := by
  rw [natToChars, natToCharsAux]
  split
  · simp
  · exact natToCharsAux_ne_nil_of_acc _ _ _ (by simp)

theorem foldl_natToCharsAux :
    ∀ (fuel n : Nat) (acc : JStr), n < 10 ^ fuel →
      (natToCharsAux fuel n acc).foldl (fun a c => a * 10 + (c.toNat - 48)) 0 =
        acc.foldl (fun a c => a * 10 + (c.toNat - 48)) n := by
  intro fuel
  induction fuel with
  | zero =>
    intro n acc hn
    have : n = 0 := by simpa using hn
    subst this
    rfl
  | succ fuel ih =>
    intro n acc hn
    rw [natToCharsAux]
    split
    · rename_i h
      simp [List.foldl_cons, toNat_digitChar h]
    · rename_i h
      rw [ih (n / 10) (digitChar (n % 10) :: acc)
        ((Nat.div_lt_iff_lt_mul (by omega)).mpr (by rw [← pow_succ]; exact hn))]
      simp only [List.foldl_cons]
      rw [toNat_digitChar (Nat.mod_lt n (by omega))]
      congr 1
      omega

theorem charsToNat_natToChars (n : Nat) : charsToNat (natToChars n) = n := by
  unfold charsToNat natToChars
  rw [foldl_natToCharsAux (n + 1) n []
    (lt_of_lt_of_le (Nat.lt_pow_self (by omega) n)
      (Nat.pow_le_pow_right (by omega) (Nat.le_succ n)))]
  rfl

theorem takeWhile_append_all {p : Char → Bool} :
    ∀ (l1 : JStr) (c2 : Char) (l2 : JStr), (∀ c ∈ l1, p c = true) → p c2 = false →
      (l1 ++ c2 :: l2).takeWhile p = l1 ∧ (l1 ++ c2 :: l2).dropWhile p = c2 :: l2 := by
  intro l1
  induction l1 with
  | nil =>
    intro c2 l2 _ h2
    constructor
    · simp [List.takeWhile, h2]
    · simp [List.dropWhile, h2]
  | cons c l ih =>
    intro c2 l2 h1 h2
    have hc : p c = true := h1 c (by simp)
    obtain ⟨ht, hd⟩ := ih c2 l2 (fun d hd => h1 d (by simp [hd])) h2
    constructor
    · simp [List.takeWhile, hc, ht]
    · simp [List.dropWhile, hc, hd]

theorem matchPercentFrom_at (p : Nat) (rest : JStr) :
    matchPercentFrom ('(' :: (natToChars p ++ '%' :: rest)) = some p := by
  obtain ⟨ht, hd⟩ := takeWhile_append_all (natToChars p) '%' rest
    (natToChars_all_dig p) (by decide)
  rw [matchPercentFrom]
  rw [if_pos rfl, hd, ht]
  simp [natToChars_ne_nil p, charsToNat_natToChars p]

theorem matchBracketFrom_append (pre l : JStr) (hpre : ∀ c ∈ pre, c ≠ '[') :
    matchBracketFrom (pre ++ l) = matchBracketFrom l := by
  induction pre with
  | nil => rfl
  | cons c rest ih =>
    have hc : c ≠ '[' := hpre c (by simp)
    rw [List.cons_append, matchBracketFrom, if_neg hc]
    exact ih (fun d hd => hpre d (by simp [hd]))

theorem scanToClose_exists :
    ∀ (inner tail : JStr), '\n' ∉ inner →
      ∃ c, scanToClose (inner ++ ']' :: tail) = some c ∧ ∀ ch ∈ c, ch ∈ inner := by
  intro inner
  induction inner with
  | nil =>
    intro tail _
    exact ⟨[], by rw [List.nil_append, scanToClose, if_pos rfl], by simp⟩
  | cons c rest ih =>
    intro tail h
    by_cases hc : c = ']'
    · subst hc
      exact ⟨[], by rw [List.cons_append, scanToClose, if_pos rfl], by simp⟩
    · have hn : c ≠ '\n' := fun hcn => h (by simp [hcn])
      obtain ⟨cc, hcc, hsub⟩ := ih tail (fun hm => h (by simp [hm]))
      refine ⟨c :: cc, by rw [List.cons_append, scanToClose, if_neg hc, if_neg hn, hcc]; rfl, ?_⟩
      intro ch hch
      rcases List.mem_cons.mp hch with rfl | hch
      · simp
      · exact List.mem_cons.mpr (Or.inr (hsub ch hch))

theorem matchBracketFrom_found (inner tail : JStr) (h : '\n' ∉ inner) :
    ∃ c, matchBracketFrom ('[' :: (inner ++ ']' :: tail)) = some c ∧ ∀ ch ∈ c, ch ∈ inner := by
  obtain ⟨c, hc, hsub⟩ := scanToClose_exists inner tail h
  refine ⟨c, ?_, hsub⟩
  rw [matchBracketFrom, if_pos rfl, hc]

theorem splitGo_dot_none :
    ∀ (l : JStr) (fuel : Nat) (acc : JStr), l.length ≤ fuel → '.' ∉ l →
      splitGo fuel (jstr ".") l acc = [acc.reverse ++ l] := by
  intro l
  induction l with
  | nil => intro fuel acc _ _; cases fuel <;> simp [splitGo]
  | cons c rest ih =>
    intro fuel acc hfuel h
    have hc : c ≠ '.' := fun hcc => h (by simp [hcc])
    have hpref : (jstr ".").isPrefixOf (c :: rest) = false := by
      simp [jstr, List.isPrefixOf]
      intro hcc
      exact absurd hcc.symm hc
    cases fuel with
    | zero => simp at hfuel
    | succ fuel =>
      rw [splitGo, if_neg (by simp [hpref]),
        ih fuel (c :: acc) (by simpa using hfuel) (fun hm => h (by simp [hm]))]
      simp

theorem splitGo_dot_split :
    ∀ (l1 l2 : JStr) (fuel : Nat) (acc : JStr), l1.length + 1 + l2.length ≤ fuel →
      '.' ∉ l1 → '.' ∉ l2 →
      splitGo fuel (jstr ".") (l1 ++ '.' :: l2) acc = [acc.reverse ++ l1, l2] := by
  intro l1
  induction l1 with
  | nil =>
    intro l2 fuel acc hfuel _ h2
    cases fuel with
    | zero => simp at hfuel
    | succ fuel =>
      rw [List.nil_append, splitGo,
        if_pos (by constructor <;> simp [jstr, List.isPrefixOf])]
      have : (('.' :: l2).drop (jstr ".").length) = l2 := by simp [jstr]
      rw [this, splitGo_dot_none l2 fuel [] (by simp at hfuel; omega) h2]
      simp
  | cons c rest ih =>
    intro l2 fuel acc hfuel h h2
    have hc : c ≠ '.' := fun hcc => h (by simp [hcc])
    have hpref : (jstr ".").isPrefixOf (c :: (rest ++ '.' :: l2)) = false := by
      simp [jstr, List.isPrefixOf]
      intro hcc
      exact absurd hcc.symm hc
    cases fuel with
    | zero => simp at hfuel
    | succ fuel =>
      rw [List.cons_append, splitGo, if_neg (by simp [hpref]),
        ih l2 fuel (c :: acc) (by simp at hfuel ⊢; omega) (fun hm => h (by simp [hm])) h2]
      simp

theorem splitGo_commaSpace_none :
    ∀ (l : JStr) (fuel : Nat) (acc : JStr), l.length ≤ fuel → ',' ∉ l →
      splitGo fuel (jstr ", ") l acc = [acc.reverse ++ l] := by
  intro l
  induction l with
  | nil => intro fuel acc _ _; cases fuel <;> simp [splitGo]
  | cons c rest ih =>
    intro fuel acc hfuel h
    have hc : c ≠ ',' := fun hcc => h (by simp [hcc])
    have hpref : (jstr ", ").isPrefixOf (c :: rest) = false := by
      simp [jstr, List.isPrefixOf]
      intro hcc
      exact absurd hcc.symm hc
    cases fuel with
    | zero => simp at hfuel
    | succ fuel =>
      rw [splitGo, if_neg (by simp [hpref]),
        ih fuel (c :: acc) (by simpa using hfuel) (fun hm => h (by simp [hm]))]
      simp

theorem all_dig_of_padded (l : JStr) (d : Nat) (h : ∀ c ∈ l, isDig c = true) :
    ∀ c ∈ padIntLeft l d, isDig c = true := by
  intro c hc
  rcases List.mem_append.mp hc with hc | hc
  · have := List.eq_of_mem_replicate hc
    subst this
    decide
  · exact h c hc

theorem all_dig_strip (l : JStr) (h : ∀ c ∈ l, isDig c = true) :
    ∀ c ∈ stripTrailingZeros l, isDig c = true := by
  intro c hc
  apply h
  unfold stripTrailingZeros at hc
  have h1 : c ∈ l.reverse.dropWhile (· == '0') := List.mem_reverse.mp hc
  have h2 : c ∈ l.reverse := (List.dropWhile_sublist _).mem h1
  exact List.mem_reverse.mp h2

theorem not_dot_of_all_dig (l : JStr) (h : ∀ c ∈ l, isDig c = true) : '.' ∉ l := by
  intro hm
  have := h '.' hm
  simp [isDig] at this

theorem parseUnitsM_formatUnits_isSome (q d : Nat) :
    ∃ n, parseUnitsM (formatUnits q d) d = some n := by
  have hip : ∀ c ∈ natToChars (q / 10 ^ d), isDig c = true := natToChars_all_dig _
  have hfp : ∀ c ∈ stripTrailingZeros (padIntLeft (natToChars (q % 10 ^ d)) d), isDig c = true :=
    all_dig_strip _ (all_dig_of_padded _ d (natToChars_all_dig _))
  unfold formatUnits parseUnitsM
  by_cases he : (stripTrailingZeros (padIntLeft (natToChars (q % 10 ^ d)) d)).isEmpty
  · rw [if_pos he]
    unfold splitOnSep
    rw [List.append_nil,
      splitGo_dot_none _ _ [] le_rfl (not_dot_of_all_dig _ hip)]
    simp only [List.reverse_nil, List.nil_append]
    rw [if_pos (by rw [List.all_eq_true]; exact hip)]
    exact ⟨_, rfl⟩
  · rw [if_neg he]
    unfold splitOnSep
    rw [splitGo_dot_split _ _ _ []
      (by simp only [List.length_append, List.length_cons]; omega)
      (not_dot_of_all_dig _ hip) (not_dot_of_all_dig _ hfp)]
    simp only [List.reverse_nil, List.nil_append]
    rw [if_pos (by
      rw [Bool.and_eq_true, List.all_eq_true, List.all_eq_true]
      exact ⟨hip, hfp⟩)]
    split
    · exact ⟨_, rfl⟩
    · exact ⟨_, rfl⟩

theorem mapExcept_nil {α β : Type} (f : α → Except String β) : mapExcept f [] = .ok [] := rfl

theorem mapExcept_cons {α β : Type} (f : α → Except String β) (x : α) (xs : List α) :
    mapExcept f (x :: xs) =
      (f x >>= fun y => mapExcept f xs >>= fun ys => .ok (y :: ys)) := rfl

theorem mapExcept_map_eq {α β γ : Type} (f : α → Except String β) (e : γ → α) (l : List γ) :
    mapExcept f (l.map e) = mapExcept (fun x => f (e x)) l := by
  induction l with
  | nil => rfl
  | cons x xs ih => rw [List.map_cons, mapExcept_cons, mapExcept_cons, ih]

theorem mapExcept_ok_of {α β δ : Type} {f : α → Except String β} {g : β → δ} {h : α → δ} :
    ∀ (l : List α), (∀ x ∈ l, ∃ y, f x = .ok y ∧ g y = h x) →
      ∃ ys, mapExcept f l = .ok ys ∧ ys.map g = l.map h ∧ ys.length = l.length := by
  intro l
  induction l with
  | nil => intro _; exact ⟨[], rfl, rfl, rfl⟩
  | cons x xs ih =>
    intro hall
    obtain ⟨y, hy, hgy⟩ := hall x (by simp)
    obtain ⟨ys, hys, hmap, hlen⟩ := ih (fun z hz => hall z (by simp [hz]))
    refine ⟨y :: ys, ?_, ?_, ?_⟩
    · rw [mapExcept_cons, hy, except_ok_bind, hys, except_ok_bind]
    · simp [hmap, hgy]
    · simp [hlen]

theorem mapExcept_ok_mem {α β : Type} {f : α → Except String β} :
    ∀ {l : List α} {ys : List β}, mapExcept f l = .ok ys →
      ∀ y ∈ ys, ∃ x ∈ l, f x = .ok y := by
  intro l
  induction l with
  | nil =>
    intro ys hys y hy
    rw [mapExcept_nil] at hys
    cases hys
    simp at hy
  | cons x xs ih =>
    intro ys hys y hy
    rw [mapExcept_cons] at hys
    rcases (except_bind_ok_iff _ _ _).mp hys with ⟨y0, hy0, hrest⟩
    rcases (except_bind_ok_iff _ _ _).mp hrest with ⟨ys0, hys0, hcons⟩
    cases hcons
    rcases List.mem_cons.mp hy with rfl | hy
    · exact ⟨x, by simp, hy0⟩
    · obtain ⟨x2, hx2, hfx2⟩ := ih hys0 y hy
      exact ⟨x2, by simp [hx2], hfx2⟩

theorem foldl_add_percent :
    ∀ (l : List RouteWithQuote) (n : Nat),
      l.foldl (fun s r => s + r.percent) n = n + (l.map (·.percent)).sum := by
  intro l
  induction l with
  | nil => intro n; simp
  | cons r rs ih =>
    intro n
    rw [List.foldl_cons, ih]
    simp [List.map_cons, List.sum_cons]
    omega

theorem parseRouteString_routeEntry (r : SRRoute) (h : '\n' ∉ pathStringOf r)
    (hcm : ',' ∉ pathStringOf r) :
    ∃ hop, parseRouteString (routeEntryString r) = .ok ⟨r.percent, [hop]⟩ := by
  have hshape : routeEntryString r =
      '(' :: (natToChars r.percent ++ '%' :: ' ' :: '[' :: (pathStringOf r ++ ']' :: [')'])) := by
    rw [routeEntryString]
  have hpct : matchPercentFrom (routeEntryString r) = some r.percent := by
    rw [hshape]; exact matchPercentFrom_at r.percent _
  have hbrshape : routeEntryString r =
      ('(' :: (natToChars r.percent ++ ['%', ' '])) ++ '[' :: (pathStringOf r ++ ']' :: [')']) := by
    rw [hshape]; simp
  obtain ⟨c, hc, hsub⟩ := matchBracketFrom_found (pathStringOf r) [')'] h
  have hbr : matchBracketFrom (routeEntryString r) = some c := by
    rw [hbrshape, matchBracketFrom_append _ _ ?_, hc]
    intro d hd
    rcases List.mem_cons.mp hd with rfl | hd
    · decide
    · rcases List.mem_append.mp hd with hd | hd
      · intro hdd
        have := natToChars_all_dig r.percent d hd
        rw [hdd] at this
        simp [isDig] at this
      · rcases List.mem_cons.mp hd with rfl | hd
        · decide
        · rcases List.mem_cons.mp hd with rfl | hd
          · decide
          · simp at hd
  have hsplit : splitOnSep (jstr ", ") c = [c] := by
    rw [splitOnSep, splitGo_commaSpace_none c c.length [] le_rfl
      (fun hmc => hcm (hsub ',' hmc))]
    rfl
  refine ⟨parseHopFragment c, ?_⟩
  rw [parseRouteString, hpct, hbr]
  simp [hsplit]

theorem buildHopsAux_ok (oc : Currency) (hoc : oc.isToken = true) :
    ∀ (hops : List ParsedHop), (∀ h ∈ hops.dropLast, h.tokenOut ≠ none) →
      ∀ (cur : TokenV1), ∃ p, buildHopsAux oc cur hops = .ok p := by
  intro hops
  induction hops with
  | nil => intro _ cur; exact ⟨([], []), rfl⟩
  | cons h t ih =>
    intro hmid cur
    cases t with
    | nil =>
      rw [buildHopsAux, convertCurrencyToToken, if_pos hoc]
      exact ⟨_, rfl⟩
    | cons h2 rest =>
      have hdrop : (h :: h2 :: rest).dropLast = h :: (h2 :: rest).dropLast := rfl
      have hto : h.tokenOut ≠ none := hmid h (by rw [hdrop]; simp)
      obtain ⟨s, hs⟩ : ∃ s, h.tokenOut = some s := by
        cases hh : h.tokenOut with
        | none => exact absurd hh hto
        | some s => exact ⟨s, rfl⟩
      have hph : placeholderToken h =
          .ok { chainId := none, address := jstr "0x" ++ toLowerStr s, decimals := 18
                symbol := some s, name := some s } := by
        rw [placeholderToken, hs]
      obtain ⟨p, hp⟩ := ih
        (fun hx hxm => hmid hx (by rw [hdrop]; exact List.mem_cons.mpr (Or.inr hxm))) _
      rw [buildHopsAux, hph, except_ok_bind, hp]
      exact ⟨_, rfl⟩

theorem createCurrencyAmountStr_ok (c : Currency) (s : JStr) (a : Nat)
    (hp : parseUnitsM s c.decimals = some a) :
    createCurrencyAmountStr (convertCurrencyToSwapCurrency c) s =
      .ok { currency := convertCurrencyToSwapCurrency c, quotient := a
            decimalScale := 10 ^ (convertCurrencyToSwapCurrency c).decimals } := by
  rw [createCurrencyAmountStr]
  rw [show (convertCurrencyToSwapCurrency c).decimals = c.decimals from rfl, parseUnitsE, hp]
  rfl

theorem buildRoute_ok (q : QuoteResult) (ic oc : SwapCurrency)
    (ia ob : SwapCurrencyAmount) (pr : ParsedRoute)
    (hin : q.inputToken.isToken = true) (hout : q.outputToken.isToken = true)
    (hmid : ∀ h ∈ pr.hops.dropLast, h.tokenOut ≠ none) :
    ∃ y, buildRoute q ic oc ia ob pr = .ok y ∧ y.percent = pr.percent := by
  have hst : ∃ st, convertCurrencyToToken q.inputToken = .ok st := by
    rw [convertCurrencyToToken, if_pos hin]
    exact ⟨_, rfl⟩
  obtain ⟨st, hst⟩ := hst
  obtain ⟨p, hp⟩ := buildHopsAux_ok q.outputToken hout pr.hops hmid st
  cases p with
  | mk ts ps =>
    rw [buildRoute, hst, except_ok_bind, hp, except_ok_bind]
    exact ⟨_, rfl, rfl⟩

theorem convertQuoteToTrade_ok_of (q : QuoteResult) (prs : List ParsedRoute) (a b : Nat)
    (hroutes : mapExcept parseRouteString q.route = .ok prs)
    (hin : q.inputToken.isToken = true) (hout : q.outputToken.isToken = true)
    (hpa : parseUnitsM q.inputAmount q.inputToken.decimals = some a)
    (hpb : parseUnitsM q.outputAmount q.outputToken.decimals = some b)
    (hmid : ∀ pr ∈ prs, ∀ h ∈ pr.hops.dropLast, h.tokenOut ≠ none) :
    ∃ t, convertQuoteToTrade q = .ok t ∧
      t.inputAmount.quotient = a ∧ t.outputAmount.quotient = b ∧
      t.routes.map (·.percent) = prs.map (·.percent) ∧
      t.routes.length = prs.length := by
  have hAin := createCurrencyAmountStr_ok q.inputToken q.inputAmount a hpa
  have hAout := createCurrencyAmountStr_ok q.outputToken q.outputAmount b hpb
  obtain ⟨routes, hRoutes, hmapEq, hlen⟩ :=
    mapExcept_ok_of (f := buildRoute q (convertCurrencyToSwapCurrency q.inputToken)
        (convertCurrencyToSwapCurrency q.outputToken)
        { currency := convertCurrencyToSwapCurrency q.inputToken, quotient := a
          decimalScale := 10 ^ (convertCurrencyToSwapCurrency q.inputToken).decimals }
        { currency := convertCurrencyToSwapCurrency q.outputToken, quotient := b
          decimalScale := 10 ^ (convertCurrencyToSwapCurrency q.outputToken).decimals })
      (g := (·.percent)) (h := (·.percent)) prs
      (fun pr hpr => buildRoute_ok q _ _ _ _ pr hin hout (hmid pr hpr))
  refine ⟨{ tradeType := .EXACT_INPUT
            inputAmount := { currency := convertCurrencyToSwapCurrency q.inputToken, quotient := a
                             decimalScale := 10 ^ (convertCurrencyToSwapCurrency q.inputToken).decimals }
            outputAmount := { currency := convertCurrencyToSwapCurrency q.outputToken, quotient := b
                              decimalScale := 10 ^ (convertCurrencyToSwapCurrency q.outputToken).decimals }
            routes := routes
            gasEstimate := q.gasEstimate
            priceImpact := parseFloatQ (removeFirst (jstr "%") q.priceImpact)
            executionPrice := { baseCurrency := convertCurrencyToSwapCurrency q.inputToken
                                quoteCurrency := convertCurrencyToSwapCurrency q.outputToken
                                fraction := ⟨b, a⟩ } }, ?_, rfl, rfl, hmapEq, hlen⟩
  simp only [convertQuoteToTrade, hroutes, except_ok_bind, hAin, hAout, hRoutes,
    except_pure_eq_ok]

/-!
## Claim theorems
-/

/-- Claim C1, counterexample: the V1 decoder does not fail closed on a
multi-hop descriptor — `convertQuoteToTrade` succeeds and the decoded
route's token path contains a fabricated placeholder intermediate token
whose address is `"0x" + tokenOut.toLowerCase() = "0xb"`. -/
theorem c1_v1_decoder_fabricates_intermediate_token :
    ((convertQuoteToTrade c1quote).toOption.map
      (fun t => ((t.routes.getD 0 dRouteWQ).route.tokenPath.getD 1 dToken).address)) =
      some (jstr "0xb") := by decide

/-- Claim C1, amended: the V2 converter's `buildPoolsAndPath` fails
closed — it throws for every parsed route whose hop list is non-empty (in
particular every multi-hop route), never constructing placeholder
intermediate tokens; the V1 converter, by contrast, fabricates them (see
the counterexample). -/
theorem c1_v2_buildPoolsAndPath_fails_closed
    (ri : QuoteToTradeConverterV2.ParsedRouteV2) (it ot : Currency) (ps : JStr)
    (h : ri.hops ≠ []) :
    QuoteToTradeConverterV2.buildPoolsAndPath ri it ot ps =
      .error "Multi-hop swaps cannot be accurately converted without raw trade data. Please ensure rawTrade is included in the quote." := by
  rw [QuoteToTradeConverterV2.buildPoolsAndPath,
    if_neg (fun hl => h (List.length_eq_zero.mp hl))]

theorem c1_v2_fails_closed_witness :
    c1riV2.hops ≠ [] ∧
    QuoteToTradeConverterV2.buildPoolsAndPath c1riV2 tokA tokC (jstr "") =
      .error "Multi-hop swaps cannot be accurately converted without raw trade data. Please ensure rawTrade is included in the quote." :=
  ⟨by decide, c1_v2_buildPoolsAndPath_fails_closed c1riV2 tokA tokC (jstr "") (by decide)⟩

/-- Claim C2, counterexample: decoding a 33/33/34 split of a total of 10
yields per-route input amounts summing to 9, not 10 — the final route
does not absorb the rounding remainder, although the percents sum to
exactly 100. -/
theorem c2_rounding_remainder_leaks :
    (convertQuoteToTrade c2quote).toOption.map
      (fun t => ((t.routes.map (·.inputAmount.quotient)).sum, t.inputAmount.quotient,
        (t.routes.map (·.percent)).sum)) = some (9, 10, 100) := by decide

/-- Claim C2, amended: every decoded route's amounts are
`totalAmount * percent / 100` under truncating integer division — for
every route including the last, with no remainder absorption, so the
per-route sums can fall short of the trade totals. -/
theorem c2_route_amounts_floor (q : QuoteResult) (t : TradeV1)
    (h : convertQuoteToTrade q = .ok t) :
    ∀ r ∈ t.routes, r.inputAmount.quotient = t.inputAmount.quotient * r.percent / 100 ∧
      r.outputAmount.quotient = t.outputAmount.quotient * r.percent / 100 := by
  intro r hr
  simp only [convertQuoteToTrade] at h
  rcases (except_bind_ok_iff _ _ _).mp h with ⟨prs, hprs, h⟩
  rcases (except_bind_ok_iff _ _ _).mp h with ⟨ia, hia, h⟩
  rcases (except_bind_ok_iff _ _ _).mp h with ⟨ob, hob, h⟩
  rcases (except_bind_ok_iff _ _ _).mp h with ⟨routes, hroutes, h⟩
  rw [Except.ok.injEq] at h
  subst h
  simp only at hr
  obtain ⟨pr, _, hbr⟩ := mapExcept_ok_mem hroutes r hr
  simp only [buildRoute] at hbr
  rcases (except_bind_ok_iff _ _ _).mp hbr with ⟨st, hst, hbr⟩
  rcases (except_bind_ok_iff _ _ _).mp hbr with ⟨p, hp, hbr⟩
  cases p with
  | mk ts ps =>
    simp only at hbr
    rw [Except.ok.injEq] at hbr
    subst hbr
    exact ⟨rfl, rfl⟩

theorem c2_floor_witness :
    convertQuoteToTrade c2quote = .ok c2trade ∧ c2route0 ∈ c2trade.routes ∧
    (c2route0.inputAmount.quotient = c2trade.inputAmount.quotient * c2route0.percent / 100 ∧
      c2route0.outputAmount.quotient = c2trade.outputAmount.quotient * c2route0.percent / 100) :=
  ⟨by decide, by decide,
    c2_route_amounts_floor c2quote c2trade (by decide) c2route0 (by decide)⟩

/-- Claim C4: each canonical fee tier survives the encode/decode round
trip exactly — rendering the fee as `fee/10000` percent in the route
entry and parsing it back with `parseFloat(...) * 10000` returns the same
basis-point value, in both the V1 and the V2 hop parser. -/
theorem c4_feeTier_roundtrip :
    ∀ f ∈ [(100 : ℚ), 500, 3000, 10000],
      ((parseRouteString (routeEntryString (c4route f))).toOption.bind
        (fun pr => pr.hops.head?.bind (·.fee)) = some f) ∧
      (((QuoteToTradeConverterV2.parseRouteString (routeEntryString (c4route f))).hops.head?.bind
        (·.fee)) = some f) := by
  intro f hf
  simp only [List.mem_cons, List.not_mem_nil, or_false] at hf
  rcases hf with rfl | rfl | rfl | rfl <;> exact ⟨by decide, by decide⟩

theorem c4_feeTier_roundtrip_witness :
    (3000 : ℚ) ∈ [(100 : ℚ), 500, 3000, 10000] ∧
    ((parseRouteString (routeEntryString (c4route 3000))).toOption.bind
      (fun pr => pr.hops.head?.bind (·.fee)) = some 3000) ∧
    (((QuoteToTradeConverterV2.parseRouteString (routeEntryString (c4route 3000))).hops.head?.bind
      (·.fee)) = some 3000) := by
  refine ⟨by decide, ?_, ?_⟩
  · exact (c4_feeTier_roundtrip 3000 (by decide)).1
  · exact (c4_feeTier_roundtrip 3000 (by decide)).2

/-- Claim C5, counterexample: a reconstructed trade whose route percents
sum to 150 passes the V2 `validateConversion` (it returns `true`), while
the spec's five-check conjunction is false — so `validate` is not
equivalent to the five checks: the percent-sum check is missing. -/
theorem c5_validator_accepts_percent_mismatch :
    QuoteToTradeConverterV2.validateConversion c5quote c5trade = .ok true ∧
    validateSpecFiveChecks c5quote c5trade = false ∧
    c5trade.routes.foldl (fun s r => s + r.percent) 0 = 150 :=
  ⟨by decide, by decide, by decide⟩

/-- Claim C5, amended: when the amount strings parse, the V2
`validateConversion` returns exactly the conjunction of four checks —
input quotient, output quotient, route count, and the two currency
identities — with no percent-sum check (the V1 variant checks the
percent sum but omits currency identity); it throws precisely when
`parseUnits` rejects an amount string. -/
theorem c5_validateConversion_characterization (q : QuoteResult) (t : SRTrade) (a b : Nat)
    (ha : parseUnitsM q.inputAmount q.inputToken.decimals = some a)
    (hb : parseUnitsM q.outputAmount q.outputToken.decimals = some b) :
    QuoteToTradeConverterV2.validateConversion q t =
      .ok ((t.inputAmount.quotient == a) && (t.outputAmount.quotient == b) &&
        (q.route.length == t.routes.length) &&
        Currency.equalsC t.inputAmount.currency q.inputToken &&
        Currency.equalsC t.outputAmount.currency q.outputToken) := by
  simp only [QuoteToTradeConverterV2.validateConversion, parseUnitsE, ha, hb,
    except_ok_bind, except_pure_eq_ok]

theorem c5_characterization_witness :
    parseUnitsM c5quote.inputAmount c5quote.inputToken.decimals = some 10 ∧
    parseUnitsM c5quote.outputAmount c5quote.outputToken.decimals = some 10 ∧
    QuoteToTradeConverterV2.validateConversion c5quote c5trade =
      .ok ((c5trade.inputAmount.quotient == 10) && (c5trade.outputAmount.quotient == 10) &&
        (c5quote.route.length == c5trade.routes.length) &&
        Currency.equalsC c5trade.inputAmount.currency c5quote.inputToken &&
        Currency.equalsC c5trade.outputAmount.currency c5quote.outputToken) :=
  ⟨by decide, by decide,
    c5_validateConversion_characterization c5quote c5trade 10 10 (by decide) (by decide)⟩

/-- Claim C6, counterexample: the descriptor `"(150% [A-B V2])"` decodes
successfully — no `PercentageMismatch` error — into a single route whose
percent is taken verbatim as 150. -/
theorem c6_percent150_decodes_without_error :
    (convertQuoteToTrade c6quote).toOption.map (fun t => t.routes.map (·.percent)) =
      some [150] := by decide

/-- Claim C6, amended: the decoder evaluates no percentage-sum check at
all — whenever the route strings parse, the currencies are tokens, the
amount strings parse, and every intermediate (non-last) hop fragment
names an output token (otherwise the placeholder construction throws a
`TypeError` unrelated to percentages), decoding succeeds with every route
percent taken verbatim from its descriptor entry, whatever the percents
sum to; the mismatch is reported only later, by the V1 validator
returning `false`. -/
theorem c6_decode_has_no_percent_sum_check (q : QuoteResult) (prs : List ParsedRoute)
    (a b : Nat)
    (hroutes : mapExcept parseRouteString q.route = .ok prs)
    (hin : q.inputToken.isToken = true) (hout : q.outputToken.isToken = true)
    (hpa : parseUnitsM q.inputAmount q.inputToken.decimals = some a)
    (hpb : parseUnitsM q.outputAmount q.outputToken.decimals = some b)
    (hmid : ∀ pr ∈ prs, ∀ h ∈ pr.hops.dropLast, h.tokenOut ≠ none) :
    ∃ t, convertQuoteToTrade q = .ok t ∧
      t.routes.map (·.percent) = prs.map (·.percent) := by
  obtain ⟨t, h1, _, _, h4, _⟩ :=
    convertQuoteToTrade_ok_of q prs a b hroutes hin hout hpa hpb hmid
  exact ⟨t, h1, h4⟩

theorem c6_no_sum_check_witness :
    mapExcept parseRouteString c6quote.route =
      .ok [⟨150, [⟨jstr "A", some (jstr "B"), some (jstr "V2"), none, none⟩]⟩] ∧
    c6quote.inputToken.isToken = true ∧ c6quote.outputToken.isToken = true ∧
    parseUnitsM c6quote.inputAmount c6quote.inputToken.decimals = some 10 ∧
    parseUnitsM c6quote.outputAmount c6quote.outputToken.decimals = some 10 ∧
    (∀ pr ∈ ([⟨150, [⟨jstr "A", some (jstr "B"), some (jstr "V2"), none, none⟩]⟩] :
        List ParsedRoute), ∀ h ∈ pr.hops.dropLast, h.tokenOut ≠ none) ∧
    (∃ t, convertQuoteToTrade c6quote = .ok t ∧
      t.routes.map (·.percent) =
        ([⟨150, [⟨jstr "A", some (jstr "B"), some (jstr "V2"), none, none⟩]⟩] :
          List ParsedRoute).map (·.percent)) ∧
    validateConversion c6quote c6trade = .ok false :=
  ⟨by decide, by decide, by decide, by decide, by decide, by decide,
    c6_decode_has_no_percent_sum_check c6quote _ 10 10 (by decide) (by decide) (by decide)
      (by decide) (by decide) (by decide),
    by decide⟩

/-- Claim C7, counterexample: a hop tag that carries neither a V3/fee
marker nor a STABLE marker (`"FOO"`) is classified by the V1 converter as
`STABLE`, not as the claimed `ConstantProduct` (`V2`). -/
theorem c7_markerless_tag_classified_stable :
    (convertQuoteToTrade c7quote).toOption.map
      (fun t => ((t.routes.getD 0 dRouteWQ).route.pools.getD 0 dPool).type) =
      some PoolType.STABLE := by decide

/-- Claim C7, amended: the two classifiers disagree.  The V2 direct-swap
classifier maps a pool-info string with neither a `"V3"` nor a `"Stable"`
marker (including an explicit `"V2"`) to ConstantProduct; the V1 per-hop
mapping yields ConstantProduct only for the exact tag `"V2"` and maps
every other tag — including a missing one — to Stable. -/
theorem c7_classifier_split :
    (∀ s : JStr, containsSeq s (jstr "V3") = false → containsSeq s (jstr "Stable") = false →
      QuoteToTradeConverterV2.classifyPoolInfoString s = PoolType.V2) ∧
    (∀ pt : Option JStr, pt ≠ some (jstr "V3") → pt ≠ some (jstr "V2") →
      hopPoolType pt = PoolType.STABLE) ∧
    hopPoolType (some (jstr "V2")) = PoolType.V2 := by
  refine ⟨?_, ?_, by decide⟩
  · intro s h1 h2
    rw [QuoteToTradeConverterV2.classifyPoolInfoString, if_neg (by rw [h1]; exact nofun),
      if_neg (by rw [h2]; exact nofun)]
  · intro pt h1 h2
    rw [hopPoolType, if_neg (by simp only [beq_iff_eq]; exact h1),
      if_neg (by simp only [beq_iff_eq]; exact h2)]

theorem c7_classifier_split_witness :
    containsSeq (jstr "FOO 0xcc") (jstr "V3") = false ∧
    containsSeq (jstr "FOO 0xcc") (jstr "Stable") = false ∧
    QuoteToTradeConverterV2.classifyPoolInfoString (jstr "FOO 0xcc") = PoolType.V2 ∧
    hopPoolType (some (jstr "FOO")) = PoolType.STABLE :=
  ⟨by decide, by decide, c7_classifier_split.1 _ (by decide) (by decide),
    c7_classifier_split.2.1 _ (by decide) (by decide)⟩

/-- Claim C8, counterexample: encoding the spec's two-route example does
not yield the claimed single joined string — the encoder's `route` field
is an array of per-route strings that is never joined with `", "`. -/
theorem c8_encoder_does_not_join_routes :
    (formatQuoteResult c8trade (jstr "1")).route ≠
      [jstr "(60% [USDC-WETH V3 0.3% 0xAAAAAAAAAAAAAAAAAAAAAAAAAAAAAAAAAAAAAAAA]), (40% [USDC-WETH V2 0xBBBBBBBBBBBBBBBBBBBBBBBBBBBBBBBBBBBBBBBB])"] := by
  decide

/-- Claim C8, amended: encoding the two-route example yields the
two-element array of exactly the claimed route strings (full addresses,
`", "` only between hops inside one entry); the second quoter file's
variant renders the same entries with each address truncated to its first
8 characters plus `"..."`; and decoding the encoded quote reconstructs
the two single-hop routes with the 60/40 floor-divided amounts. -/
theorem c8_encoder_route_array :
    (formatQuoteResult c8trade (jstr "1")).route =
      [jstr "(60% [USDC-WETH V3 0.3% 0xAAAAAAAAAAAAAAAAAAAAAAAAAAAAAAAAAAAAAAAA])",
       jstr "(40% [USDC-WETH V2 0xBBBBBBBBBBBBBBBBBBBBBBBBBBBBBBBBBBBBBBBB])"] ∧
    routeEntryString008 c8routeA = jstr "(60% [USDC-WETH V3 0.3% 0xAAAAAA...])" ∧
    routeEntryString008 c8routeB = jstr "(40% [USDC-WETH V2 0xBBBBBB...])" ∧
    (convertQuoteToTrade (formatQuoteResult c8trade (jstr "1"))).toOption.map
      (fun t => t.routes.map (fun r => (r.inputAmount.quotient, r.outputAmount.quotient,
        r.percent))) =
      some [(600000, 1200000000000000000, 60), (400000, 800000000000000000, 40)] :=
  ⟨by decide, by decide, by decide, by decide⟩

/-- Claim C10, counterexample: a route string lacking both the percentage
parenthetical and a bracketed hop list makes the V1 decoder throw
(`Invalid route format`), so "the decoder does not fail" does not hold
for every percent-less route string. -/
theorem c10_v1_throws_without_brackets :
    parseRouteString (jstr "USDC-WETH V2") = .error "Invalid route format" := by decide

/-- Claim C10, amended: a missing percentage never by itself causes
failure — whenever the bracketed hop list is present the V1 parser
succeeds with the default percent 100, and the V2 parser maps a missing
bracket list to percent 100 with an empty hop list (the V1 parser instead
throws in that case, see the counterexample). -/
theorem c10_missing_percent_defaults_100 :
    (∀ s c, matchPercentFrom s = none → matchBracketFrom s = some c →
      parseRouteString s = .ok ⟨100, (splitOnSep (jstr ", ") c).map parseHopFragment⟩) ∧
    (∀ s, matchBracketFrom s = none →
      QuoteToTradeConverterV2.parseRouteString s = ⟨100, []⟩) := by
  constructor
  · intro s c h1 h2
    rw [parseRouteString, h1, h2]
    rfl
  · intro s h
    rw [QuoteToTradeConverterV2.parseRouteString, h]

theorem c10_defaults_witness :
    matchPercentFrom (jstr "[A-B V2]") = none ∧
    matchBracketFrom (jstr "[A-B V2]") = some (jstr "A-B V2") ∧
    parseRouteString (jstr "[A-B V2]") =
      .ok ⟨100, (splitOnSep (jstr ", ") (jstr "A-B V2")).map parseHopFragment⟩ ∧
    matchBracketFrom (jstr "USDC-WETH") = none ∧
    QuoteToTradeConverterV2.parseRouteString (jstr "USDC-WETH") = ⟨100, []⟩ :=
  ⟨by decide, by decide,
    c10_missing_percent_defaults_100.1 _ _ (by decide) (by decide),
    by decide,
    c10_missing_percent_defaults_100.2 _ (by decide)⟩

/-- Claim C9, counterexample: a pool decoded from a descriptor with no
recoverable address is bit-for-bit identical to one decoded from a
descriptor that spells out the zero address — the decoded trades are
equal, so no flag or marker distinguishes the best-effort placeholder
from a known (authoritative) zero address; the only trace is the zero
address itself. -/
theorem c9_no_provenance_flag_counterexample :
    convertQuoteToTrade (c9quoteNoAddr tokA tokB (jstr "10") (jstr "10") (jstr "0.01%") none) =
      convertQuoteToTrade
        (c9quoteZeroAddr tokA tokB (jstr "10") (jstr "10") (jstr "0.01%") none) ∧
    (convertQuoteToTrade
      (c9quoteNoAddr tokA tokB (jstr "10") (jstr "10") (jstr "0.01%") none)).toOption.map
        (fun t => ((t.routes.getD 0 dRouteWQ).route.pools.getD 0 dPool).address) =
      some zeroAddress :=
  ⟨rfl, by decide⟩

/-- Claim C9, amended: the decoder marks an unrecoverable pool address
only by substituting the zero-address sentinel — `hopAddress` maps a
missing address to `0x000...0`, and decoding a descriptor without an
address equals, for every trade context, decoding the same descriptor
with the zero address written out; the `Pool` data model carries no
provenance field. -/
theorem c9_zero_address_sentinel :
    (∀ h : ParsedHop, h.address = none → hopAddress h = zeroAddress) ∧
    (∀ (it ot : Currency) (ia oa pi : JStr) (g : Option Nat),
      convertQuoteToTrade (c9quoteNoAddr it ot ia oa pi g) =
        convertQuoteToTrade (c9quoteZeroAddr it ot ia oa pi g)) :=
  ⟨fun h hh => by rw [hopAddress, hh], fun _ _ _ _ _ _ => rfl⟩

theorem c9_sentinel_witness :
    (⟨jstr "A", some (jstr "B"), some (jstr "V2"), none, none⟩ : ParsedHop).address = none ∧
    hopAddress ⟨jstr "A", some (jstr "B"), some (jstr "V2"), none, none⟩ = zeroAddress ∧
    convertQuoteToTrade (c9quoteNoAddr tokA tokB (jstr "1") (jstr "1") (jstr "0.01%") none) =
      convertQuoteToTrade (c9quoteZeroAddr tokA tokB (jstr "1") (jstr "1") (jstr "0.01%") none) :=
  ⟨rfl, c9_zero_address_sentinel.1 _ rfl, c9_zero_address_sentinel.2 tokA tokB _ _ _ none⟩

/-- Claim C3: the single-hop round trip passes the Round-Trip Validator.
For every well-formed trade — token input/output currencies, a parseable
raw input-amount string, route percents summing to 100, all routes
single-hop, and no newline or comma in the rendered hop segments (a
comma inside a symbol or address would make the decoder split the entry
into several hop fragments, and on a dash-less intermediate fragment the
real decode throws at the placeholder `toLowerCase()` call) — encoding
with `formatQuoteResult` and decoding with `convertQuoteToTrade`
succeeds, and `validateConversion` accepts the reconstruction (its
checks: both amount quotients, route count, and percent sum). -/
theorem c3_roundtrip_single_hop (t : SRTrade) (raw : JStr) (a : Nat)
    (hin : t.inputAmount.currency.isToken = true)
    (hout : t.outputAmount.currency.isToken = true)
    (hraw : parseUnitsM raw t.inputAmount.currency.decimals = some a)
    (hpct : (t.routes.map (·.percent)).sum = 100)
    (_hsingle : ∀ r ∈ t.routes, r.path.length = 2 ∧ r.pools.length = 1)
    (hnl : ∀ r ∈ t.routes, '\n' ∉ pathStringOf r)
    (hcm : ∀ r ∈ t.routes, ',' ∉ pathStringOf r) :
    ∃ t2, convertQuoteToTrade (formatQuoteResult t raw) = .ok t2 ∧
      validateConversion (formatQuoteResult t raw) t2 = .ok true := by
  obtain ⟨b, hb⟩ := parseUnitsM_formatUnits_isSome t.outputAmount.quotient
    t.outputAmount.currency.decimals
  obtain ⟨prs, hprs, hmap, hlen⟩ :=
    mapExcept_ok_of (f := fun r => parseRouteString (routeEntryString r))
      (g := fun pr : ParsedRoute => (pr.percent, pr.hops.dropLast))
      (h := fun r : SRRoute => (r.percent, ([] : List ParsedHop))) t.routes
      (fun r hr => by
        obtain ⟨hop, hok⟩ := parseRouteString_routeEntry r (hnl r hr) (hcm r hr)
        exact ⟨⟨r.percent, [hop]⟩, hok, rfl⟩)
  have hmap1 : prs.map (fun pr : ParsedRoute => pr.percent) =
      t.routes.map (fun r : SRRoute => r.percent) := by
    have h1 := congrArg (List.map Prod.fst) hmap
    simpa [List.map_map, Function.comp] using h1
  have hmid : ∀ pr ∈ prs, ∀ h ∈ pr.hops.dropLast, h.tokenOut ≠ none := by
    intro pr hpr h hh _
    have h1 : (pr.percent, pr.hops.dropLast) ∈
        prs.map (fun pr : ParsedRoute => (pr.percent, pr.hops.dropLast)) :=
      List.mem_map_of_mem _ hpr
    rw [hmap] at h1
    obtain ⟨r, _, heq⟩ := List.mem_map.mp h1
    have h2 : ([] : List ParsedHop) = pr.hops.dropLast := congrArg Prod.snd heq
    rw [← h2] at hh
    simp at hh
  have hroute : mapExcept parseRouteString (formatQuoteResult t raw).route = .ok prs := by
    show mapExcept parseRouteString (t.routes.map routeEntryString) = .ok prs
    rw [mapExcept_map_eq]
    exact hprs
  obtain ⟨t2, hconv, hqa, hqb, hpmap, hplen⟩ :=
    convertQuoteToTrade_ok_of (formatQuoteResult t raw) prs a b hroute hin hout hraw hb hmid
  refine ⟨t2, hconv, ?_⟩
  simp only [validateConversion, formatQuoteResult, parseUnitsE, hraw, hb, except_ok_bind,
    except_pure_eq_ok, hqa, hqb, beq_self_eq_true, Bool.true_and, List.length_map,
    foldl_add_percent, Nat.zero_add, hpmap, hmap1, hpct, hplen, hlen]

theorem c3_roundtrip_witness :
    c3trade.inputAmount.currency.isToken = true ∧
    c3trade.outputAmount.currency.isToken = true ∧
    parseUnitsM (jstr "10") c3trade.inputAmount.currency.decimals = some 10 ∧
    (c3trade.routes.map (·.percent)).sum = 100 ∧
    (∀ r ∈ c3trade.routes, r.path.length = 2 ∧ r.pools.length = 1) ∧
    (∀ r ∈ c3trade.routes, '\n' ∉ pathStringOf r) ∧
    (∀ r ∈ c3trade.routes, ',' ∉ pathStringOf r) ∧
    (∃ t2, convertQuoteToTrade (formatQuoteResult c3trade (jstr "10")) = .ok t2 ∧
      validateConversion (formatQuoteResult c3trade (jstr "10")) t2 = .ok true) :=
  ⟨by decide, by decide, by decide, by decide, by decide, by decide, by decide,
    c3_roundtrip_single_hop c3trade (jstr "10") 10 (by decide) (by decide) (by decide)
      (by decide) (by decide) (by decide) (by decide)⟩
